import Mathlib

/-!
Shallow embedding of the research-agent execution core
(src/agent/orchestrator.py, src/agent/refiner.py, src/agent/strategist.py,
src/agent/context_resolver.py and the pydantic models in src/models/),
together with theorems settling the frozen claims about it.

Python floats that only ever hold scores in [0,1] are modelled as `Rat`.
Python exceptions are modelled with `Except String`; a raised exception is
`.error msg`.  External services (web search, text generation) are opaque
collaborators and are modelled as explicit behaviour parameters.
-/

/-- Mirrors models/search_models.py `SearchResult` (the optional metadata
fields `relevance_score`, `published_date`, `domain` are never read by the
embedded code and are omitted). `content: Optional[str]` is `Option String`. -/
structure SearchResult where
  title : String
  url : String
  snippet : String
  content : Option String
deriving DecidableEq

/-- Mirrors models/strategist_models.py `SearchQuery`. -/
structure SearchQuery where
  query : String
  purpose : String
deriving DecidableEq

/-- The closed `action` enum of `ExecutionStep` (Literal["search", "generation"]). -/
inductive StepAction where
  | search
  | generation
deriving DecidableEq

/-- The closed `mode` enum of `ExecutionStep` (Literal["single", "parallel"]). -/
inductive StepMode where
  | single
  | parallel
deriving DecidableEq

/-- Mirrors models/strategist_models.py `ExecutionStep`. -/
structure ExecutionStep where
  step_id : Int
  description : String
  action : StepAction
  mode : StepMode
  depends_on : List Int
  search_queries : List SearchQuery
deriving DecidableEq

/-- The closed `execution_type` enum of `ResearchStrategy` (Literal["single", "chain"]). -/
inductive ExecutionType where
  | single
  | chain
deriving DecidableEq

/-- Mirrors models/strategist_models.py `ResearchStrategy`. -/
structure ResearchStrategy where
  execution_type : ExecutionType
  steps : List ExecutionStep
  reason_summary : String
  confidence : Rat
deriving DecidableEq

/-- Mirrors models/refiner_models.py `RefineResult`. -/
structure RefineResult where
  score : Rat
  should_retry : Bool
  refined_data : String
  reason : String
  source_indices : List Int
deriving DecidableEq

/-- Mirrors models/refiner_models.py `RefinerLLMResponse`. -/
structure RefinerLLMResponse where
  score : Rat
  reason : String
  extracted_info : String
  source_indices : List Int
deriving DecidableEq

/-- One entry of the `sources` list built in orchestrator.py lines 382-390. -/
structure Source where
  url : String
  title : String
  domain : String
deriving DecidableEq

/-- The per-query result dict produced by `ResearchAgent._search_with_refine`
(orchestrator.py lines 340-348): keys refined_data, sources, query, score and
the optional key error. -/
structure RefinedData where
  refined_data : String
  sources : List Source
  query : String
  score : Rat
  error : Option String
deriving DecidableEq

/-- Python list indexing `xs[i]`: a negative index counts from the end, and an
index outside `[-len, len)` raises IndexError. -/
def pyListGet {α : Type} (xs : List α) (i : Int) : Except String α :=
  let j := if i < 0 then (xs.length : Int) + i else i
  if h : 0 ≤ j ∧ j.toNat < xs.length then .ok (xs.get ⟨j.toNat, h.2⟩)
  else .error "IndexError: list index out of range"

/-- Python str.split with a one-character separator, on the character list:
pieces between separator occurrences, keeping empty pieces, so that
"a//b" splits to ["a", "", "b"] and "" splits to [""]. -/
def pySplitCharAux (c : Char) : List Char → List Char → List String
  | [], acc => [String.mk acc.reverse]
  | x :: xs, acc =>
    if x = c then String.mk acc.reverse :: pySplitCharAux c xs []
    else pySplitCharAux c xs (x :: acc)

/-- Python `s.split(c)` for a single-character separator. -/
def pySplitChar (s : String) (c : Char) : List String :=
  pySplitCharAux c s.data []

/-- The domain expression of orchestrator.py line 386:
url.split("/")[2] if "/" in url else url.  The indexing raises IndexError when
the url contains a slash but splits into fewer than three parts. -/
def pyDomain (url : String) : Except String String :=
  if url.data.contains '/' then pyListGet (pySplitChar url '/') 2 else .ok url

/-- One element of the `sources` list (orchestrator.py lines 383-387): the dict
built from `results_with_content[i]`. -/
def mkSource (r : SearchResult) : Except String Source :=
  match pyDomain r.url with
  | .error e => .error e
  | .ok d => .ok ⟨r.url, r.title, d⟩

/-- The `sources` list comprehension of orchestrator.py lines 382-390:
`[... for i in refine_result.source_indices if i < len(results_with_content)]`.
Indices are filtered only on the upper side; each kept index is then resolved
with Python indexing semantics, left to right, the first failure raising. -/
def buildSources (docs : List SearchResult) : List Int → Except String (List Source)
  | [] => .ok []
  | i :: rest =>
    if i < (docs.length : Int) then
      match pyListGet docs i with
      | .error e => .error e
      | .ok r =>
        match mkSource r with
        | .error e => .error e
        | .ok s =>
          match buildSources docs rest with
          | .error e => .error e
          | .ok srcs => .ok (s :: srcs)
    else buildSources docs rest

/-- The content filter of `ResearchAgent._validate_search_results`
(orchestrator.py line 447): `r.content and len(r.content.strip()) > 50`. -/
def hasSubstantialContent (r : SearchResult) : Bool :=
  match r.content with
  | none => false
  | some c => decide (50 < c.trim.length)

/-- Mirrors `ResearchAgent._validate_search_results` (orchestrator.py lines
426-455): `none` models returning None (validation failed), `some` the filtered
list of results with substantial content. -/
def validate_search_results (rs : List SearchResult) : Option (List SearchResult) :=
  if rs = [] then none
  else
    let results_with_content := rs.filter hasSubstantialContent
    if results_with_content = [] then none else some results_with_content

/-- The structured failure dict returned by `_search_with_refine` when every
attempt failed (orchestrator.py lines 418-424). -/
def failureSentinel (query : String) : RefinedData :=
  { refined_data := "Unable to find relevant information for query: " ++ query
    sources := []
    query := query
    score := 0
    error := some "All search attempts failed (empty results or no substantial content)" }

/-- The best-result update of orchestrator.py lines 396-397: replace the
tracked best exactly when the current score is strictly larger. -/
def updateBest (best : Option RefinedData) (current : RefinedData) : Option RefinedData :=
  match best with
  | none => some current
  | some b => if b.score < current.score then some current else some b

/-- Default orchestrator-level retry bound (orchestrator.py line 352). -/
def orchestratorMaxRetries : Nat := 3

/-- The retry loop of `ResearchAgent._search_with_refine` (orchestrator.py lines
351-424), with the external calls made explicit: `searchBeh rc` is the outcome
of `search_provider.search` on attempt `rc` and `refinerBeh rc docs` the
outcome of `refiner.refine_search_results`.  Neither call sits inside a
try/except in the source, so a raised exception propagates (`.error`).  `fuel`
counts the remaining loop iterations (`max_retries + 1 - retry_count`); when it
runs out the loop falls through to the best-result/sentinel epilogue. -/
def swrLoop (query : String) (searchBeh : Nat → Except String (List SearchResult))
    (refinerBeh : Nat → List SearchResult → Except String RefineResult) :
    Nat → Nat → Option RefinedData → Except String RefinedData
  | 0, _, best =>
    match best with
    | some b => .ok b
    | none => .ok (failureSentinel query)
  | fuel + 1, rc, best =>
    match searchBeh rc with
    | .error e => .error e
    | .ok search_results =>
      match validate_search_results search_results with
      | none => swrLoop query searchBeh refinerBeh fuel (rc + 1) best
      | some results_with_content =>
        match refinerBeh rc results_with_content with
        | .error e => .error e
        | .ok refine_result =>
          match buildSources results_with_content refine_result.source_indices with
          | .error e => .error e
          | .ok srcs =>
            let current : RefinedData :=
              { refined_data := refine_result.refined_data
                sources := srcs
                query := query
                score := refine_result.score
                error := none }
            let best2 := updateBest best current
            if refine_result.should_retry then
              swrLoop query searchBeh refinerBeh fuel (rc + 1) best2
            else .ok current

/-- Mirrors `ResearchAgent._search_with_refine` (orchestrator.py lines 336-424):
the single-query resolver, starting at retry_count 0 with no tracked best. -/
def search_with_refine (query : String)
    (searchBeh : Nat → Except String (List SearchResult))
    (refinerBeh : Nat → List SearchResult → Except String RefineResult) :
    Except String RefinedData :=
  swrLoop query searchBeh refinerBeh (orchestratorMaxRetries + 1) 0 none

/-- The error dict built for an exception captured by `asyncio.gather`
(orchestrator.py lines 309-315). -/
def errorDict (q e : String) : RefinedData :=
  { refined_data := "Search failed due to exception"
    sources := []
    query := q
    score := 0
    error := some e }

/-- Conversion of one gathered outcome (orchestrator.py lines 303-315): a dict
passes through, an exception becomes a score-0 error dict for that query. -/
def settle (q : String) (r : Except String RefinedData) : RefinedData :=
  match r with
  | .ok d => d
  | .error e => errorDict q e

/-- The parallel branch of `_execute_search_step` (orchestrator.py lines
288-326): one task per query, created in list order; `asyncio.gather` returns
the outcomes in that same argument order regardless of completion order, so the
gathered list is modelled index by index.  `resolve i q` is the outcome of
query i (a dict, or the exception captured by return_exceptions=True). -/
def gatherSettle (resolve : Nat → String → Except String RefinedData) :
    Nat → List SearchQuery → List RefinedData
  | _, [] => []
  | i, q :: qs => settle q.query (resolve i q.query) :: gatherSettle resolve (i + 1) qs

/-- Mirrors `ResearchAgent._execute_search_step` (orchestrator.py lines
262-334).  In single mode only the first query is dispatched; the surrounding
try/except turns an exception from that dispatch into an empty result list
(lines 332-334).  In parallel mode per-query exceptions are captured by gather
and converted, so the outer except is not reached. -/
def execute_search_step (step : ExecutionStep)
    (resolve : Nat → String → Except String RefinedData) : List RefinedData :=
  if step.search_queries = [] then []
  else
    match step.mode with
    | .single =>
      match step.search_queries with
      | [] => []
      | q :: _ =>
        match resolve 0 q.query with
        | .ok d => [d]
        | .error _ => []
    | .parallel => gatherSettle resolve 0 step.search_queries

/-- Lookup in the `step_results` dict of `_execute_steps`, keyed by step_id. -/
def lookupStep : List (Int × List RefinedData) → Int → Option (List RefinedData)
  | [], _ => none
  | (k, v) :: rest, key => if k = key then some v else lookupStep rest key

/-- Assignment `step_results[step_id] = v`: overwrite the existing binding, or
append a new one. -/
def insertStep : List (Int × List RefinedData) → Int → List RefinedData →
    List (Int × List RefinedData)
  | [], key, v => [(key, v)]
  | (k, v0) :: rest, key, v =>
    if k = key then (key, v) :: rest else (k, v0) :: insertStep rest key v

/-- The mutable state of `ResearchAgent._execute_steps` (orchestrator.py lines
173-176): the three accumulators it returns plus the step_results dict it keeps
for dependency resolution. -/
structure StepsAcc where
  all_refined_data : List RefinedData
  all_search_queries : List String
  urls_used : List String
  step_results : List (Int × List RefinedData)
deriving DecidableEq

/-- The collection loop of `_execute_steps` (orchestrator.py lines 224-240):
`for idx, search_query in enumerate(step.search_queries)`, walking the query
list and the step result list in parallel.  Every query string is appended to
all_search_queries; a result exists only while the data list lasts, and it is
added to all_refined_data (with its source urls to urls_used) only when its
score is strictly positive. -/
def collectQueries : List SearchQuery → List RefinedData → StepsAcc → StepsAcc
  | [], _, acc => acc
  | q :: qs, [], acc =>
    collectQueries qs [] { acc with all_search_queries := acc.all_search_queries ++ [q.query] }
  | q :: qs, d :: ds, acc =>
    let acc1 := { acc with all_search_queries := acc.all_search_queries ++ [q.query] }
    let acc2 :=
      if 0 < d.score then
        { acc1 with
          all_refined_data := acc1.all_refined_data ++ [d]
          urls_used := acc1.urls_used ++ d.sources.map (fun s => s.url) }
      else acc1
    collectQueries qs ds acc2

/-- One iteration of the step loop of `ResearchAgent._execute_steps`
(orchestrator.py lines 178-258).  A step whose depends_on list has an id absent
from step_results is skipped (`continue`, lines 183-187).  A search step with a
non-empty depends_on then calls `self.context_resolver.refine_queries(...)`
(line 202); `ContextResolver` defines no such method (context_resolver.py
defines only `add_context`), so Python raises AttributeError at that call,
modelled as `.error`.  A search step without dependencies dispatches its
queries, collects them, and stores only the results with score > 0 under its
step_id (lines 242-244).  A generation step stores an empty list (line 255). -/
def processStep (resolve : Int → Nat → String → Except String RefinedData)
    (step : ExecutionStep) (acc : StepsAcc) : Except String StepsAcc :=
  let missing_deps := step.depends_on.filter (fun d => (lookupStep acc.step_results d).isNone)
  if step.depends_on ≠ [] ∧ missing_deps ≠ [] then .ok acc
  else
    match step.action with
    | .search =>
      if step.depends_on ≠ [] then
        .error "AttributeError: ContextResolver object has no attribute refine_queries"
      else
        let step_refined_data := execute_search_step step (resolve step.step_id)
        let acc1 := collectQueries step.search_queries step_refined_data acc
        .ok { acc1 with
              step_results := insertStep acc1.step_results step.step_id
                (step_refined_data.filter (fun d => decide (0 < d.score))) }
    | .generation =>
      .ok { acc with step_results := insertStep acc.step_results step.step_id [] }

/-- The step loop of `_execute_steps`: process the plan steps in list order;
an exception raised inside an iteration propagates and aborts the walk. -/
def executeStepsAux (resolve : Int → Nat → String → Except String RefinedData) :
    List ExecutionStep → StepsAcc → Except String StepsAcc
  | [], acc => .ok acc
  | step :: rest, acc =>
    match processStep resolve step acc with
    | .error e => .error e
    | .ok acc2 => executeStepsAux resolve rest acc2

/-- The initial accumulator state of `_execute_steps` (orchestrator.py lines
173-176). -/
def emptyAcc : StepsAcc := ⟨[], [], [], []⟩

/-- Mirrors `ResearchAgent._execute_steps` (orchestrator.py lines 162-260).
The Python function returns the triple (all_refined_data, all_search_queries,
urls_used); the embedding keeps the whole final state so the per-step record
can be inspected.  `resolve sid i q` is the outcome of `_search_with_refine`
for query index i of the step with id sid. -/
def execute_steps (strategy : ResearchStrategy)
    (resolve : Int → Nat → String → Except String RefinedData) : Except String StepsAcc :=
  executeStepsAux resolve strategy.steps emptyAcc

/-- Default refiner-level retry bound (refiner.py line 22: Refiner(max_retries=1),
the value used by the orchestrator, which constructs Refiner()). -/
def refinerMaxRetries : Nat := 1

/-- Outcome of the generation call plus JSON extraction plus pydantic
validation inside `Refiner._llm_refine`: either a validated
`RefinerLLMResponse`, or a failure (the generate call raised, no JSON was
found, or validation failed). -/
inductive LLMRefineOutcome where
  | ok (resp : RefinerLLMResponse)
  | fail (e : String)
deriving DecidableEq

/-- Mirrors `Refiner._extract_basic_info` (refiner.py lines 140-150): for the
first three results, take content (first 400 characters) when truthy else the
snippet, keep the non-empty ones tagged with their 1-based index, and join
with blank lines. -/
def extract_basic_info (query : String) (results : List SearchResult) : String :=
  let parts := ((results.take 3).zip (List.range 3)).filterMap (fun p =>
    let content := match p.1.content with
      | some c => if c = "" then p.1.snippet else c.take 400
      | none => p.1.snippet
    if content = "" then none
    else some ("[" ++ toString (p.2 + 1) ++ "] " ++ p.1.title ++ ": " ++ content))
  if parts = [] then "No substantial information found."
  else String.intercalate "\n\n" parts

/-- Mirrors `Refiner._llm_refine` (refiner.py lines 94-138).  The whole body
that can fail sits inside a try/except that returns a fallback dict with score
0.6, so this function is total: no exception ever escapes it. -/
def llm_refine (query : String) (results : List SearchResult)
    (o : LLMRefineOutcome) : RefinerLLMResponse :=
  match o with
  | .ok resp => resp
  | .fail _ =>
    { score := 0.6
      reason := "LLM parsing failed, using basic extraction"
      extracted_info := extract_basic_info query results
      source_indices := (List.range (min 3 results.length)).map Int.ofNat }

/-- Mirrors `Refiner.refine_search_results` (refiner.py lines 37-92).  Because
`_llm_refine` catches every exception internally, the body of the outer try
never raises, and the outer except branch of lines 75-92 (neutral score 0.5,
should_retry = retry_count < max_retries) is unreachable for generation or
parsing failures; it is therefore absent from the embedding. -/
def refine_search_results (query : String) (results : List SearchResult)
    (retry_count : Nat) (o : LLMRefineOutcome) : RefineResult :=
  let refined := llm_refine query results o
  let should_retry := decide (refined.score < (0.5 : Rat)) && decide (retry_count < refinerMaxRetries)
  { score := refined.score
    should_retry := should_retry
    refined_data := refined.extracted_info
    reason := refined.reason
    source_indices := refined.source_indices }

/-- Outcome of the strategist generation call plus tag stripping plus pydantic
parsing (strategist.py lines 45-79): `ok` when a `ResearchStrategy` was
parsed; `parseFail` when `model_validate_json` raised ValidationError or
ValueError; `genFail` when anything else in the outer try raised (notably the
generate call itself). -/
inductive PlanGenOutcome where
  | ok (s : ResearchStrategy)
  | parseFail (e : String)
  | genFail (e : String)
deriving DecidableEq

/-- The deterministic fallback step built by both failure branches of
`Strategist.plan_research_strategy` (strategist.py lines 84-91 and 103-110). -/
def fallbackStep (query : String) : ExecutionStep :=
  { step_id := 1
    description := "Execute search query"
    action := .search
    mode := .single
    depends_on := []
    search_queries := [{ query := query, purpose := "Answer user query" }] }

/-- Mirrors `Strategist.plan_research_strategy` (strategist.py lines 33-114). -/
def plan_research_strategy (query : String) (o : PlanGenOutcome) : ResearchStrategy :=
  match o with
  | .ok s => s
  | .parseFail _ =>
    { execution_type := .single
      steps := [fallbackStep query]
      reason_summary := "Failed to determine strategy, defaulting to single research call"
      confidence := 0.5 }
  | .genFail e =>
    { execution_type := .single
      steps := [fallbackStep query]
      reason_summary := "Error during planning: " ++ e
      confidence := 0.5 }

/-- Outcome of one augmentation attempt inside `ContextResolver.add_context`
(context_resolver.py lines 68-93): the generate call plus tag extraction plus
pydantic parsing either yields a replacement `ExecutionStep` or fails. -/
inductive AugmentOutcome where
  | ok (s : ExecutionStep)
  | fail (e : String)
deriving DecidableEq

/-- The retry loop of `ContextResolver.add_context` (context_resolver.py lines
66-101): `fuel` is `max_retries - retry_count`.  On success the parsed step is
returned; on failure, retry while attempts remain, else return the original
step.  When `max_retries = 0` the while loop never runs and Python falls off
the end of the function, returning None: the `none` of the base case. -/
def addContextLoop (current : ExecutionStep) (beh : Nat → AugmentOutcome) :
    Nat → Nat → Option ExecutionStep
  | _, 0 => none
  | rc, fuel + 1 =>
    match beh rc with
    | .ok s => some s
    | .fail _ =>
      match fuel with
      | 0 => some current
      | f + 1 => addContextLoop current beh (rc + 1) (f + 1)

/-- Mirrors `ContextResolver.add_context` (context_resolver.py lines 35-101)
with `beh rc` the outcome of augmentation attempt rc; max_retries defaults
to 3.  Note the orchestrator never reaches this method: it calls the
nonexistent `refine_queries` instead (see `processStep`). -/
def add_context (current : ExecutionStep) (beh : Nat → AugmentOutcome)
    (max_retries : Nat := 3) : Option ExecutionStep :=
  addContextLoop current beh 0 max_retries

/-- A search service that always returns normally (possibly with an empty
list), as the concrete providers in search.py do: both wrap their body in a
catch-all try/except returning []. -/
def liftSearch (sB : Nat → List SearchResult) : Nat → Except String (List SearchResult) :=
  fun rc => .ok (sB rc)

/-- A refiner that always returns normally, as `Refiner.refine_search_results`
does thanks to its internal catch-all handlers. -/
def liftRefine (rB : Nat → List SearchResult → RefineResult) :
    Nat → List SearchResult → Except String RefineResult :=
  fun rc docs => .ok (rB rc docs)

/-- The current-attempt dict that attempt `rc` of the resolver loop builds,
`none` when search validation fails on that attempt (empty results or no
substantial content) or when source construction raises. -/
def attemptCurrent (query : String) (sB : Nat → List SearchResult)
    (rB : Nat → List SearchResult → RefineResult) (rc : Nat) : Option RefinedData :=
  match validate_search_results (sB rc) with
  | none => none
  | some docs =>
    match buildSources docs (rB rc docs).source_indices with
    | .error _ => none
    | .ok srcs =>
      some { refined_data := (rB rc docs).refined_data
             sources := srcs
             query := query
             score := (rB rc docs).score
             error := none }

/-- Whether attempt `rc` sends the loop to the next attempt: search validation
failure always does; otherwise the refiner's should_retry flag decides. -/
def attemptRetries (sB : Nat → List SearchResult)
    (rB : Nat → List SearchResult → RefineResult) (rc : Nat) : Bool :=
  match validate_search_results (sB rc) with
  | none => true
  | some docs => (rB rc docs).should_retry

/-- The dicts produced by attempts rc, rc+1, ..., rc+fuel-1, in attempt order,
skipping attempts whose validation failed. -/
def producedBetween (query : String) (sB : Nat → List SearchResult)
    (rB : Nat → List SearchResult → RefineResult) : Nat → Nat → List RefinedData
  | _, 0 => []
  | rc, fuel + 1 =>
    match attemptCurrent query sB rB rc with
    | none => producedBetween query sB rB (rc + 1) fuel
    | some c => c :: producedBetween query sB rB (rc + 1) fuel

theorem lookupStep_insertStep (m : List (Int × List RefinedData)) (k : Int)
    (v : List RefinedData) : lookupStep (insertStep m k v) k = some v := by
  induction m with
  | nil => simp [insertStep, lookupStep]
  | cons hd tl ih =>
    obtain ⟨k0, v0⟩ := hd
    by_cases h : k0 = k
    · simp [insertStep, h, lookupStep]
    · simp [insertStep, h, lookupStep, ih]

theorem collectQueries_step_results (qs : List SearchQuery) (ds : List RefinedData)
    (acc : StepsAcc) : (collectQueries qs ds acc).step_results = acc.step_results := by
  induction qs generalizing ds acc with
  | nil => simp [collectQueries]
  | cons q qs ih =>
    cases ds with
    | nil => simp [collectQueries, ih]
    | cons d ds =>
      by_cases h : 0 < d.score
      · simp [collectQueries, h, ih]
      · simp [collectQueries, h, ih]

theorem collectQueries_all_search_queries (qs : List SearchQuery) (ds : List RefinedData)
    (acc : StepsAcc) :
    (collectQueries qs ds acc).all_search_queries =
      acc.all_search_queries ++ qs.map (fun q => q.query) := by
  induction qs generalizing ds acc with
  | nil => simp [collectQueries]
  | cons q qs ih =>
    cases ds with
    | nil => simp [collectQueries, ih]
    | cons d ds =>
      by_cases h : 0 < d.score
      · simp [collectQueries, h, ih]
      · simp [collectQueries, h, ih]

theorem collectQueries_refined_mem (qs : List SearchQuery) (ds : List RefinedData)
    (acc : StepsAcc) (x : RefinedData)
    (hx : x ∈ (collectQueries qs ds acc).all_refined_data) :
    x ∈ acc.all_refined_data ∨ 0 < x.score := by
  induction qs generalizing ds acc with
  | nil => simpa [collectQueries] using Or.inl hx
  | cons q qs ih =>
    cases ds with
    | nil =>
      simp only [collectQueries] at hx
      exact ih [] { acc with all_search_queries := acc.all_search_queries ++ [q.query] } hx
    | cons d ds =>
      by_cases h : 0 < d.score
      · simp only [collectQueries, h, if_pos] at hx
        rcases ih ds _ hx with hmem | hpos
        · simp only [List.mem_append, List.mem_singleton] at hmem
          rcases hmem with hmem | rfl
          · exact Or.inl hmem
          · exact Or.inr h
        · exact Or.inr hpos
      · simp only [collectQueries, h, if_neg, not_false_iff] at hx
        exact ih ds { acc with all_search_queries := acc.all_search_queries ++ [q.query] } hx

theorem gatherSettle_length (resolve : Nat → String → Except String RefinedData)
    (qs : List SearchQuery) : ∀ i, (gatherSettle resolve i qs).length = qs.length := by
  induction qs with
  | nil => intro i; simp [gatherSettle]
  | cons q qs ih => intro i; simp [gatherSettle, ih (i + 1)]

theorem gatherSettle_get? (resolve : Nat → String → Except String RefinedData)
    (qs : List SearchQuery) : ∀ i n,
    (gatherSettle resolve i qs).get? n =
      (qs.get? n).map (fun q => settle q.query (resolve (i + n) q.query)) := by
  induction qs with
  | nil => intro i n; simp [gatherSettle]
  | cons q qs ih =>
    intro i n
    cases n with
    | zero => simp [gatherSettle]
    | succ n =>
      have h : i + 1 + n = i + (n + 1) := by omega
      simp only [gatherSettle, List.get?_cons_succ, ih (i + 1) n, h]

theorem execute_search_step_parallel (step : ExecutionStep)
    (resolve : Nat → String → Except String RefinedData) (h : step.mode = .parallel) :
    execute_search_step step resolve = gatherSettle resolve 0 step.search_queries := by
  unfold execute_search_step
  by_cases hq : step.search_queries = []
  · simp [hq, gatherSettle]
  · simp [hq, h]

/-- Source construction never fails on the refiner behaviour's outputs; this is
the side condition under which a resolver attempt that passes search validation
always produces a dict. -/
def sourcesOk (rB : Nat → List SearchResult → RefineResult) : Prop :=
  ∀ rc docs, ∃ srcs, buildSources docs (rB rc docs).source_indices = Except.ok srcs

theorem swrLoop_step (query : String) (sB : Nat → List SearchResult)
    (rB : Nat → List SearchResult → RefineResult) (fuel rc : Nat) (best : Option RefinedData)
    (hOk : sourcesOk rB) :
    swrLoop query (liftSearch sB) (liftRefine rB) (fuel + 1) rc best =
      match attemptCurrent query sB rB rc with
      | none => swrLoop query (liftSearch sB) (liftRefine rB) fuel (rc + 1) best
      | some c =>
        if attemptRetries sB rB rc then
          swrLoop query (liftSearch sB) (liftRefine rB) fuel (rc + 1) (updateBest best c)
        else .ok c := by
  cases hv : validate_search_results (sB rc) with
  | none => simp [swrLoop, liftSearch, liftRefine, attemptCurrent, attemptRetries, hv]
  | some docs =>
    obtain ⟨srcs, hb⟩ := hOk rc docs
    by_cases hr : (rB rc docs).should_retry <;>
      simp [swrLoop, liftSearch, liftRefine, attemptCurrent, attemptRetries, hv, hb, hr]

theorem swrLoop_early (query : String) (sB : Nat → List SearchResult)
    (rB : Nat → List SearchResult → RefineResult) (hOk : sourcesOk rB) :
    ∀ k fuel rc best c, k < fuel →
    (∀ j, j < k →
      attemptCurrent query sB rB (rc + j) = none ∨ attemptRetries sB rB (rc + j) = true) →
    attemptCurrent query sB rB (rc + k) = some c →
    attemptRetries sB rB (rc + k) = false →
    swrLoop query (liftSearch sB) (liftRefine rB) fuel rc best = .ok c := by
  intro k
  induction k with
  | zero =>
    intro fuel rc best c hk _ hcur hret
    obtain ⟨f, rfl⟩ : ∃ f, fuel = f + 1 := ⟨fuel - 1, by omega⟩
    rw [swrLoop_step query sB rB f rc best hOk]
    rw [Nat.add_zero] at hcur hret
    simp [hcur, hret]
  | succ k ih =>
    intro fuel rc best c hk hcont hcur hret
    obtain ⟨f, rfl⟩ : ∃ f, fuel = f + 1 := ⟨fuel - 1, by omega⟩
    rw [swrLoop_step query sB rB f rc best hOk]
    have hshift : ∀ j, j < k →
        attemptCurrent query sB rB (rc + 1 + j) = none ∨
          attemptRetries sB rB (rc + 1 + j) = true := by
      intro j hj
      have e : rc + 1 + j = rc + (j + 1) := by omega
      rw [e]
      exact hcont (j + 1) (by omega)
    have e2 : rc + 1 + k = rc + (k + 1) := by omega
    cases h0 : attemptCurrent query sB rB rc with
    | none =>
      simp only [h0]
      exact ih f (rc + 1) best c (by omega) hshift (by rw [e2]; exact hcur)
        (by rw [e2]; exact hret)
    | some c0 =>
      have hr : attemptRetries sB rB rc = true := by
        rcases hcont 0 (by omega) with h | h
        · rw [Nat.add_zero] at h; rw [h0] at h; cases h
        · rw [Nat.add_zero] at h; exact h
      simp only [h0, hr, if_true]
      exact ih f (rc + 1) (updateBest best c0) c (by omega) hshift
        (by rw [e2]; exact hcur) (by rw [e2]; exact hret)

theorem swrLoop_exhaust (query : String) (sB : Nat → List SearchResult)
    (rB : Nat → List SearchResult → RefineResult) (hOk : sourcesOk rB) :
    ∀ fuel rc best,
    (∀ j, j < fuel →
      attemptCurrent query sB rB (rc + j) = none ∨ attemptRetries sB rB (rc + j) = true) →
    swrLoop query (liftSearch sB) (liftRefine rB) fuel rc best =
      .ok (match (producedBetween query sB rB rc fuel).foldl updateBest best with
           | some b => b
           | none => failureSentinel query) := by
  intro fuel
  induction fuel with
  | zero =>
    intro rc best _
    cases best <;> simp [swrLoop, producedBetween]
  | succ fuel ih =>
    intro rc best hcont
    rw [swrLoop_step query sB rB fuel rc best hOk]
    have hshift : ∀ j, j < fuel →
        attemptCurrent query sB rB (rc + 1 + j) = none ∨
          attemptRetries sB rB (rc + 1 + j) = true := by
      intro j hj
      have e : rc + 1 + j = rc + (j + 1) := by omega
      rw [e]
      exact hcont (j + 1) (by omega)
    cases h0 : attemptCurrent query sB rB rc with
    | none =>
      simp only [h0]
      rw [ih (rc + 1) best hshift]
      have : producedBetween query sB rB rc (fuel + 1) =
          producedBetween query sB rB (rc + 1) fuel := by
        simp [producedBetween, h0]
      rw [this]
    | some c =>
      have hr : attemptRetries sB rB rc = true := by
        rcases hcont 0 (by omega) with h | h
        · rw [Nat.add_zero] at h; rw [h0] at h; cases h
        · rw [Nat.add_zero] at h; exact h
      simp only [h0, hr, if_true]
      rw [ih (rc + 1) (updateBest best c) hshift]
      have : producedBetween query sB rB rc (fuel + 1) =
          c :: producedBetween query sB rB (rc + 1) fuel := by
        simp [producedBetween, h0]
      rw [this, List.foldl_cons]

theorem swrLoop_ok (query : String) (sB : Nat → List SearchResult)
    (rB : Nat → List SearchResult → RefineResult) (hOk : sourcesOk rB) :
    ∀ fuel rc best, ∃ d, swrLoop query (liftSearch sB) (liftRefine rB) fuel rc best = .ok d := by
  intro fuel
  induction fuel with
  | zero =>
    intro rc best
    cases best with
    | none => exact ⟨failureSentinel query, by simp [swrLoop]⟩
    | some b => exact ⟨b, by simp [swrLoop]⟩
  | succ fuel ih =>
    intro rc best
    rw [swrLoop_step query sB rB fuel rc best hOk]
    cases h0 : attemptCurrent query sB rB rc with
    | none => simpa only [h0] using ih (rc + 1) best
    | some c =>
      by_cases hr : attemptRetries sB rB rc = true
      · simpa only [h0, hr, if_true] using ih (rc + 1) (updateBest best c)
      · simp only [h0, hr, if_false]
        exact ⟨c, rfl⟩

theorem updateBest_some (best : Option RefinedData) (c : RefinedData) :
    ∃ b2, updateBest best c = some b2 ∧ c.score ≤ b2.score ∧
      (∀ b0, best = some b0 → b0.score ≤ b2.score) ∧ (b2 = c ∨ best = some b2) := by
  cases best with
  | none => exact ⟨c, rfl, le_refl _, by simp, Or.inl rfl⟩
  | some b =>
    by_cases h : b.score < c.score
    · refine ⟨c, by simp [updateBest, h], le_refl _, ?_, Or.inl rfl⟩
      intro b0 hb0
      cases hb0
      exact le_of_lt h
    · refine ⟨b, by simp [updateBest, h], le_of_not_lt h, ?_, Or.inr rfl⟩
      intro b0 hb0
      cases hb0
      exact le_refl _

theorem foldl_updateBest_spec :
    ∀ (l : List RefinedData) (best : Option RefinedData) (b : RefinedData),
    l.foldl updateBest best = some b →
    (b ∈ l ∨ best = some b) ∧ (∀ x ∈ l, x.score ≤ b.score) ∧
      (∀ b0, best = some b0 → b0.score ≤ b.score) := by
  intro l
  induction l with
  | nil =>
    intro best b h
    simp only [List.foldl_nil] at h
    refine ⟨Or.inr h, by simp, ?_⟩
    intro b0 hb0
    rw [h] at hb0
    cases hb0
    exact le_refl _
  | cons c t ih =>
    intro best b h
    simp only [List.foldl_cons] at h
    obtain ⟨b2, hb2, hcb2, hbest, hor⟩ := updateBest_some best c
    obtain ⟨hmem, hsc, hb0⟩ := ih (updateBest best c) b h
    have hb2b : b2.score ≤ b.score := hb0 b2 hb2
    refine ⟨?_, ?_, ?_⟩
    · rcases hmem with hm | hm
      · exact Or.inl (List.mem_cons_of_mem _ hm)
      · rw [hb2] at hm
        cases hm
        rcases hor with rfl | hbst
        · exact Or.inl (List.mem_cons_self _ _)
        · exact Or.inr hbst
    · intro x hx
      rcases List.mem_cons.mp hx with rfl | hx
      · exact le_trans hcb2 hb2b
      · exact hsc x hx
    · intro b1 hb1
      exact le_trans (hbest b1 hb1) hb2b

/-- The augmenter itself does implement bounded retry with fallback: with its
default budget of 3 attempts, when every attempt fails `add_context` returns
the original, unaugmented step (context_resolver.py lines 95-101). -/
theorem add_context_all_fail (current : ExecutionStep) (beh : Nat → AugmentOutcome)
    (hfail : ∀ rc, ∃ e, beh rc = .fail e) :
    add_context current beh = some current := by
  obtain ⟨e0, h0⟩ := hfail 0
  obtain ⟨e1, h1⟩ := hfail 1
  obtain ⟨e2, h2⟩ := hfail 2
  simp [add_context, addContextLoop, h0, h1, h2]

/-- C1: the claim states that when augmentation of a Fetch step with non-empty
depends_on fails, the engine retries up to 3 times and then proceeds with the
original unaugmented step, never aborting the step or the pipeline.  The engine
instead calls `self.context_resolver.refine_queries(...)` (orchestrator.py
line 202), a method `ContextResolver` does not define (context_resolver.py
defines only `add_context`), so the first Fetch step whose non-empty
dependencies are satisfied raises AttributeError before any augmentation
attempt, aborting the remaining step walk: evaluated here on a two-step chain
whose second step depends on the first. -/
theorem c1_augmentation_call_missing_method :
    execute_steps
      ⟨.chain,
        [⟨1, "find the entity", .search, .single, [], [⟨"q1", "p1"⟩]⟩,
         ⟨2, "follow up on the entity", .search, .single, [1], [⟨"q2", "p2"⟩]⟩],
        "chain of two searches", 1⟩
      (fun _ _ _ => .ok ⟨"found data", [], "q1", 1, none⟩) =
    .error "AttributeError: ContextResolver object has no attribute refine_queries" := by
  rfl

/-- C7 counterexample: the claim states the fallback plan's one query carries
purpose "answer user query", but strategist.py lines 90 and 109 write
"Answer user query" (capital A), so the claimed purpose string never occurs. -/
theorem c7_fallback_purpose_capitalization :
    (plan_research_strategy "who won" (.parseFail "bad json")).steps.map
        (fun s => s.search_queries.map (fun q => q.purpose)) = [["Answer user query"]] ∧
      ("Answer user query" : String) ≠ "answer user query" := by
  exact ⟨rfl, by decide⟩

/-- C7 amended: for every user query, if plan generation fails or its output
fails to parse, plan_research_strategy returns (without raising) the
deterministic fallback plan: execution type single, a single step with step_id
1, action search, mode single, no dependencies and one query equal to the user
query with purpose "Answer user query", with confidence 0.5 and a
reason_summary recording the failure (the fixed parse-failure message, or the
planning-error message carrying the exception text). -/
theorem c7_fallback_plan (query : String) (o : PlanGenOutcome)
    (h : ∀ s, o ≠ PlanGenOutcome.ok s) :
    ∃ reason,
      plan_research_strategy query o =
        { execution_type := .single
          steps := [{ step_id := 1, description := "Execute search query", action := .search,
                      mode := .single, depends_on := [],
                      search_queries := [{ query := query, purpose := "Answer user query" }] }]
          reason_summary := reason
          confidence := 0.5 } ∧
      ((∃ e, o = .parseFail e ∧
          reason = "Failed to determine strategy, defaulting to single research call") ∨
        (∃ e, o = .genFail e ∧ reason = "Error during planning: " ++ e)) := by
  cases o with
  | ok s => exact absurd rfl (h s)
  | parseFail e => exact ⟨_, rfl, Or.inl ⟨e, rfl, rfl⟩⟩
  | genFail e => exact ⟨_, rfl, Or.inr ⟨e, rfl, rfl⟩⟩

/-- Witness for C7 amended at a concrete failing generation outcome. -/
theorem c7_fallback_plan_witness :
    (∀ s, PlanGenOutcome.genFail "timeout" ≠ PlanGenOutcome.ok s) ∧
    ∃ reason,
      plan_research_strategy "capital of France" (.genFail "timeout") =
        { execution_type := .single
          steps := [{ step_id := 1, description := "Execute search query", action := .search,
                      mode := .single, depends_on := [],
                      search_queries := [{ query := "capital of France",
                                           purpose := "Answer user query" }] }]
          reason_summary := reason
          confidence := 0.5 } ∧
      ((∃ e, PlanGenOutcome.genFail "timeout" = .parseFail e ∧
          reason = "Failed to determine strategy, defaulting to single research call") ∨
        (∃ e, PlanGenOutcome.genFail "timeout" = .genFail e ∧
          reason = "Error during planning: " ++ e)) := by
  refine ⟨(fun s h => nomatch h), ?_⟩
  exact c7_fallback_plan "capital of France" (.genFail "timeout") (fun s h => nomatch h)

/-- C9 counterexample: the claim states that source indices out of range for
the filtered document list are dropped and never raise.  The bounds check of
orchestrator.py line 389 filters only indices that are too large; a negative
index below -len passes it and Python list indexing raises: with one filtered
document, source index -2 raises IndexError. -/
theorem c9_negative_index_raises :
    buildSources [⟨"Doc", "http://example.com/page", "snip", some "c"⟩] [(-2 : Int)] =
      .error "IndexError: list index out of range" := by
  rfl

/-- C9 amended: for every refiner output whose source_indices are nonnegative
(the 0-based indices refiner_models.py documents), indices at or beyond the
filtered document list length are dropped and source construction never
raises, provided each document url is accepted by the domain expression; and
every built source is taken from a document of the filtered list. -/
theorem c9_sources_bounds (docs : List SearchResult) (indices : List Int)
    (hnn : ∀ i ∈ indices, 0 ≤ i)
    (hurl : ∀ r ∈ docs, ∃ d, pyDomain r.url = Except.ok d) :
    ∃ srcs, buildSources docs indices = .ok srcs ∧
      srcs.length = (indices.filter (fun i => i < (docs.length : Int))).length ∧
      ∀ s ∈ srcs, ∃ r ∈ docs, s.url = r.url ∧ s.title = r.title := by
  induction indices with
  | nil => exact ⟨[], rfl, rfl, by simp⟩
  | cons i rest ih =>
    obtain ⟨srcs, hbuild, hlen, hmem⟩ := ih (fun j hj => hnn j (List.mem_cons_of_mem _ hj))
    by_cases hi : i < (docs.length : Int)
    · have h0 : 0 ≤ i := hnn i (List.mem_cons_self _ _)
      have hidx : i.toNat < docs.length := by omega
      have hget : pyListGet docs i = .ok docs[i.toNat] := by
        unfold pyListGet
        have hnneg : ¬ i < 0 := not_lt.mpr h0
        simp only [hnneg, if_false]
        rw [dif_pos ⟨h0, hidx⟩]
        simp [List.get_eq_getElem]
      have hdmem : docs[i.toNat] ∈ docs := List.getElem_mem hidx
      obtain ⟨dm, hdm⟩ := hurl docs[i.toNat] hdmem
      have hms : mkSource docs[i.toNat] =
          .ok ⟨docs[i.toNat].url, docs[i.toNat].title, dm⟩ := by
        simp [mkSource, hdm]
      refine ⟨⟨docs[i.toNat].url, docs[i.toNat].title, dm⟩ :: srcs, ?_, ?_, ?_⟩
      · simp [buildSources, hi, hget, hms, hbuild]
      · simp [List.filter_cons, hi, hlen]
      · intro s hs
        rcases List.mem_cons.mp hs with rfl | hs
        · exact ⟨docs[i.toNat], hdmem, rfl, rfl⟩
        · exact hmem s hs
    · refine ⟨srcs, ?_, ?_, hmem⟩
      · simp [buildSources, hi, hbuild]
      · simp [List.filter_cons, hi, hlen]

/-- Witness for C9 amended: one nonnegative out-of-range index (7) and one in
range (0) against a single well-formed document. -/
theorem c9_sources_bounds_witness :
    (∀ i ∈ [(0 : Int), 7], 0 ≤ i) ∧
    ∃ srcs,
      buildSources [⟨"Doc", "http://example.com/page", "snip", some "c"⟩] [(0 : Int), 7] =
        .ok srcs ∧
      srcs.length =
        (([(0 : Int), 7]).filter
          (fun i => i < (([(⟨"Doc", "http://example.com/page", "snip",
            some "c"⟩ : SearchResult)]).length : Int))).length ∧
      ∀ s ∈ srcs, ∃ r ∈ [(⟨"Doc", "http://example.com/page", "snip",
          some "c"⟩ : SearchResult)], s.url = r.url ∧ s.title = r.title := by
  refine ⟨by decide, ?_⟩
  exact c9_sources_bounds [⟨"Doc", "http://example.com/page", "snip", some "c"⟩]
    [(0 : Int), 7] (by decide) (fun r hr => by
      rcases List.mem_singleton.mp hr with rfl
      exact ⟨"example.com", rfl⟩)

/-- C3 counterexample: the claim states that a generation-service failure
during refinement yields score exactly 0.5 and should_retry equal to
attempt_number < max_refiner_retries.  In the code the failure is caught inside
`_llm_refine` (refiner.py lines 131-138), which returns its own fallback with
score 0.6; `refine_search_results` then computes should_retry = (0.6 < 0.5 and
...) = False.  At attempt 0 with the default bound 1 the claim would demand
score 0.5 and should_retry = true; the code gives 0.6 and false. -/
theorem c3_generation_failure_score :
    (refine_search_results "q" [⟨"Doc", "u", "snip", some "c"⟩] 0
        (.fail "connection error")).score = 0.6 ∧
      (0.6 : Rat) ≠ 0.5 ∧
      (refine_search_results "q" [⟨"Doc", "u", "snip", some "c"⟩] 0
        (.fail "connection error")).should_retry = false ∧
      0 < refinerMaxRetries := by
  have h : decide ((0.6 : Rat) < (0.5 : Rat)) = false := by
    rw [decide_eq_false_iff_not]
    norm_num
  refine ⟨by simp [refine_search_results, llm_refine], by norm_num, ?_, by decide⟩
  simp [refine_search_results, llm_refine, h]

/-- C3 amended: for every query, pre-filtered document list and attempt number,
if the generation call raises or its output fails to parse or validate,
refine_search_results returns the naive-extraction fallback built inside
`_llm_refine`: score 0.6 (not 0.5), should_retry false (since 0.6 is not below
the 0.5 threshold, regardless of the attempt number), refined_data from
`_extract_basic_info`, the fixed fallback reason, and the first
min(3, len) document indices as sources. -/
theorem c3_generation_failure_fallback (query : String) (results : List SearchResult)
    (retry_count : Nat) (e : String) (hne : results ≠ []) :
    refine_search_results query results retry_count (.fail e) =
      { score := 0.6
        should_retry := false
        refined_data := extract_basic_info query results
        reason := "LLM parsing failed, using basic extraction"
        source_indices := (List.range (min 3 results.length)).map Int.ofNat } := by
  have h : decide ((0.6 : Rat) < (0.5 : Rat)) = false := by
    rw [decide_eq_false_iff_not]
    norm_num
  simp [refine_search_results, llm_refine, h]

/-- Witness for C3 amended on a concrete non-empty document list at attempt 0. -/
theorem c3_generation_failure_fallback_witness :
    ([(⟨"Doc", "u", "snip", some "c"⟩ : SearchResult)] ≠ []) ∧
    refine_search_results "q" [⟨"Doc", "u", "snip", some "c"⟩] 0 (.fail "boom") =
      { score := 0.6
        should_retry := false
        refined_data := extract_basic_info "q" [⟨"Doc", "u", "snip", some "c"⟩]
        reason := "LLM parsing failed, using basic extraction"
        source_indices := (List.range
          (min 3 ([(⟨"Doc", "u", "snip", some "c"⟩ : SearchResult)]).length)).map Int.ofNat } := by
  refine ⟨(List.cons_ne_nil _ _), ?_⟩
  exact c3_generation_failure_fallback "q" [⟨"Doc", "u", "snip", some "c"⟩] 0 "boom"
    (List.cons_ne_nil _ _)

/-- C4 counterexample: the claim states the single-query resolver never raises
for any behaviour of the search service and refiner, including raising ones.
The search call of orchestrator.py line 358 is not wrapped in any try/except
inside `_search_with_refine`, so a raising search service propagates out of the
resolver. -/
theorem c4_search_exception_propagates :
    search_with_refine "q" (fun _ => .error "ConnectionError: search provider down")
      (fun _ _ => .error "unused") = .error "ConnectionError: search provider down" := by
  rfl

/-- C4 amended: the single-query resolver always returns a dict (possibly with
score 0.0) provided its collaborators return rather than raise: for every
search behaviour that returns a (possibly empty) list, as the concrete
providers guarantee by catching internally, and every refiner behaviour that
returns, as `Refiner.refine_search_results` guarantees, and whose source
indices never make source construction raise, the resolver returns `.ok`. -/
theorem c4_resolver_total (query : String) (sB : Nat → List SearchResult)
    (rB : Nat → List SearchResult → RefineResult) (hOk : sourcesOk rB) :
    ∃ d, search_with_refine query (liftSearch sB) (liftRefine rB) = .ok d := by
  unfold search_with_refine
  exact swrLoop_ok query sB rB hOk (orchestratorMaxRetries + 1) 0 none

/-- Witness for C4 amended: an always-empty search service and a constant
refiner with no source indices. -/
theorem c4_resolver_total_witness :
    sourcesOk (fun _ _ => (⟨0, false, "", "", []⟩ : RefineResult)) ∧
    ∃ d, search_with_refine "q" (liftSearch (fun _ => []))
        (liftRefine (fun _ _ => (⟨0, false, "", "", []⟩ : RefineResult))) = .ok d := by
  refine ⟨(fun rc docs => ⟨[], rfl⟩), ?_⟩
  exact c4_resolver_total "q" (fun _ => []) (fun _ _ => ⟨0, false, "", "", []⟩)
    (fun rc docs => ⟨[], rfl⟩)

/-- C2 counterexample: the claim states the per-step record keeps one entry per
dispatched query, including zero-quality failures.  Lines 242-244 of
orchestrator.py store only the results with score > 0: running a one-step plan
whose single query resolves to a score-0 dict records the dispatched query
(all_search_queries has one entry) but stores an empty list, not a one-entry
list, under step_id 1 — and the zero-quality result is rightly absent from the
global refined-data list. -/
theorem c2_zero_quality_dropped_from_record :
    (execute_steps ⟨.single, [⟨1, "find", .search, .single, [], [⟨"q1", "p1"⟩]⟩], "r", 1⟩
        (fun _ _ _ => .ok ⟨"nothing", [], "q1", 0, some "fail"⟩)).map
      (fun a => (lookupStep a.step_results 1, a.all_search_queries, a.all_refined_data)) =
    .ok (some [], ["q1"], []) := by
  rfl

/-- C2 amended: for every search step without dependencies, the per-step record
stored under its step_id is the list of dispatched results restricted to those
with score > 0 (zero-quality results are excluded from the per-step record as
well); zero-quality results are excluded from the globally accumulated
refined-data list; and every query string of the step is appended to the
recorded search-query list. -/
theorem c2_step_record_positive_only (resolve : Int → Nat → String → Except String RefinedData)
    (step : ExecutionStep) (acc : StepsAcc)
    (hact : step.action = .search) (hdep : step.depends_on = []) :
    ∃ acc2, processStep resolve step acc = .ok acc2 ∧
      lookupStep acc2.step_results step.step_id =
        some ((execute_search_step step (resolve step.step_id)).filter
          (fun d => decide (0 < d.score))) ∧
      (∀ d ∈ acc2.all_refined_data, d ∈ acc.all_refined_data ∨ 0 < d.score) ∧
      acc2.all_search_queries =
        acc.all_search_queries ++ step.search_queries.map (fun q => q.query) := by
  refine ⟨{ collectQueries step.search_queries
              (execute_search_step step (resolve step.step_id)) acc with
            step_results := insertStep
              (collectQueries step.search_queries
                (execute_search_step step (resolve step.step_id)) acc).step_results
              step.step_id
              ((execute_search_step step (resolve step.step_id)).filter
                (fun d => decide (0 < d.score))) }, ?_, ?_, ?_, ?_⟩
  · unfold processStep
    simp [hdep, hact]
  · show lookupStep (insertStep _ _ _) _ = _
    rw [lookupStep_insertStep]
  · intro d hd
    exact collectQueries_refined_mem _ _ _ _ hd
  · exact collectQueries_all_search_queries _ _ _

/-- Witness for C2 amended: a one-query search step whose resolution succeeds
with score 1, against the empty accumulator. -/
theorem c2_step_record_positive_only_witness :
    ((⟨4, "find", .search, .single, [], [⟨"qa", "pa"⟩]⟩ : ExecutionStep).action = .search ∧
      (⟨4, "find", .search, .single, [], [⟨"qa", "pa"⟩]⟩ : ExecutionStep).depends_on = []) ∧
    ∃ acc2,
      processStep (fun _ _ _ => .ok ⟨"found", [], "qa", 1, none⟩)
          ⟨4, "find", .search, .single, [], [⟨"qa", "pa"⟩]⟩ emptyAcc = .ok acc2 ∧
      lookupStep acc2.step_results 4 =
        some ((execute_search_step ⟨4, "find", .search, .single, [], [⟨"qa", "pa"⟩]⟩
          ((fun _ _ _ => .ok ⟨"found", [], "qa", 1, none⟩) 4)).filter
            (fun d => decide (0 < d.score))) ∧
      (∀ d ∈ acc2.all_refined_data, d ∈ emptyAcc.all_refined_data ∨ 0 < d.score) ∧
      acc2.all_search_queries = emptyAcc.all_search_queries ++
        ([(⟨"qa", "pa"⟩ : SearchQuery)]).map (fun q => q.query) := by
  refine ⟨⟨rfl, rfl⟩, ?_⟩
  exact c2_step_record_positive_only (fun _ _ _ => .ok ⟨"found", [], "qa", 1, none⟩)
    ⟨4, "find", .search, .single, [], [⟨"qa", "pa"⟩]⟩ emptyAcc rfl rfl

/-- C8: for every plan walk state, a step with a non-empty depends_on list one
of whose ids is absent from the results map is skipped: processing it leaves
the accumulator untouched and continues with the remaining steps exactly as if
the step were not there — it is never executed, nothing is raised by the skip,
and the rest of the plan is still processed. -/
theorem c8_missing_dependency_skip (resolve : Int → Nat → String → Except String RefinedData)
    (step : ExecutionStep) (rest : List ExecutionStep) (acc : StepsAcc)
    (hne : step.depends_on ≠ [])
    (hmiss : ∃ d ∈ step.depends_on, lookupStep acc.step_results d = none) :
    executeStepsAux resolve (step :: rest) acc = executeStepsAux resolve rest acc := by
  obtain ⟨d, hd, hl⟩ := hmiss
  have hmem : d ∈ step.depends_on.filter (fun x => (lookupStep acc.step_results x).isNone) :=
    List.mem_filter.mpr ⟨hd, by simp [hl]⟩
  have hfil : step.depends_on.filter (fun x => (lookupStep acc.step_results x).isNone) ≠ [] :=
    List.ne_nil_of_mem hmem
  have hskip : processStep resolve step acc = .ok acc := by
    unfold processStep
    rw [if_pos ⟨hne, hfil⟩]
  simp [executeStepsAux, hskip]

/-- Witness for C8: a single step depending on the never-completed step 5,
against the empty accumulator: the walk is the same as the walk of no steps. -/
theorem c8_missing_dependency_skip_witness :
    ((⟨2, "dependent", .search, .single, [5], [⟨"q", "p"⟩]⟩ : ExecutionStep).depends_on ≠ [] ∧
      ∃ d ∈ (⟨2, "dependent", .search, .single, [5], [⟨"q", "p"⟩]⟩ : ExecutionStep).depends_on,
        lookupStep emptyAcc.step_results d = none) ∧
    executeStepsAux (fun _ _ _ => .ok ⟨"x", [], "q", 1, none⟩)
        [⟨2, "dependent", .search, .single, [5], [⟨"q", "p"⟩]⟩] emptyAcc =
      executeStepsAux (fun _ _ _ => .ok ⟨"x", [], "q", 1, none⟩) [] emptyAcc := by
  refine ⟨⟨by decide, ⟨5, by decide, rfl⟩⟩, ?_⟩
  exact c8_missing_dependency_skip (fun _ _ _ => .ok ⟨"x", [], "q", 1, none⟩)
    ⟨2, "dependent", .search, .single, [5], [⟨"q", "p"⟩]⟩ [] emptyAcc
    (by decide) ⟨5, by decide, rfl⟩

/-- C10: for every search step in single mode without dependencies carrying at
least two queries, when the one dispatched resolution returns a dict, the step
result list is exactly that one dict (length 1); the result does not depend on
the resolver behaviour at any other query index (the remaining queries are
never resolved); and processing the step still appends every one of the step
query strings to the recorded search-query list. -/
theorem c10_single_mode_first_query_only
    (resolve : Int → Nat → String → Except String RefinedData)
    (step : ExecutionStep) (acc : StepsAcc) (q : SearchQuery) (qs : List SearchQuery)
    (d : RefinedData)
    (hact : step.action = .search) (hdep : step.depends_on = []) (hmode : step.mode = .single)
    (hqs : step.search_queries = q :: qs) (hrest : qs ≠ [])
    (hres : resolve step.step_id 0 q.query = .ok d) :
    execute_search_step step (resolve step.step_id) = [d] ∧
    (∀ resolve2 : Nat → String → Except String RefinedData,
      resolve2 0 q.query = .ok d → execute_search_step step resolve2 = [d]) ∧
    ∃ acc2, processStep resolve step acc = .ok acc2 ∧
      lookupStep acc2.step_results step.step_id =
        some ([d].filter (fun x => decide (0 < x.score))) ∧
      acc2.all_search_queries =
        acc.all_search_queries ++ (q :: qs).map (fun x => x.query) := by
  have hexec : ∀ resolve2 : Nat → String → Except String RefinedData,
      resolve2 0 q.query = .ok d → execute_search_step step resolve2 = [d] := by
    intro resolve2 h2
    unfold execute_search_step
    simp [hqs, hmode, h2]
  refine ⟨hexec _ hres, hexec, ?_⟩
  refine ⟨{ collectQueries step.search_queries
              (execute_search_step step (resolve step.step_id)) acc with
            step_results := insertStep
              (collectQueries step.search_queries
                (execute_search_step step (resolve step.step_id)) acc).step_results
              step.step_id
              ((execute_search_step step (resolve step.step_id)).filter
                (fun x => decide (0 < x.score))) }, ?_, ?_, ?_⟩
  · unfold processStep
    simp [hdep, hact]
  · show lookupStep (insertStep _ _ _) _ = _
    rw [lookupStep_insertStep, hexec _ hres]
  · show (collectQueries _ _ _).all_search_queries = _
    rw [collectQueries_all_search_queries, hqs]

/-- Witness for C10: a two-query single-mode step; only the first query is
dispatched and both query strings are recorded. -/
theorem c10_single_mode_first_query_only_witness :
    ((⟨6, "single", .search, .single, [], [⟨"qa", "pa"⟩, ⟨"qb", "pb"⟩]⟩ : ExecutionStep).action
        = .search ∧
      ([(⟨"qb", "pb"⟩ : SearchQuery)] ≠ []) ∧
      (fun (_ : Int) (_ : Nat) (_ : String) =>
        (.ok ⟨"ra", [], "qa", 1, none⟩ : Except String RefinedData)) 6 0 "qa" =
          .ok ⟨"ra", [], "qa", 1, none⟩) ∧
    execute_search_step ⟨6, "single", .search, .single, [], [⟨"qa", "pa"⟩, ⟨"qb", "pb"⟩]⟩
        ((fun _ _ _ => .ok ⟨"ra", [], "qa", 1, none⟩) 6) = [⟨"ra", [], "qa", 1, none⟩] ∧
    ∃ acc2,
      processStep (fun _ _ _ => .ok ⟨"ra", [], "qa", 1, none⟩)
          ⟨6, "single", .search, .single, [], [⟨"qa", "pa"⟩, ⟨"qb", "pb"⟩]⟩ emptyAcc =
        .ok acc2 ∧
      acc2.all_search_queries = emptyAcc.all_search_queries ++
        ([(⟨"qa", "pa"⟩ : SearchQuery), ⟨"qb", "pb"⟩]).map (fun x => x.query) := by
  have h := c10_single_mode_first_query_only
    (fun _ _ _ => .ok ⟨"ra", [], "qa", 1, none⟩)
    ⟨6, "single", .search, .single, [], [⟨"qa", "pa"⟩, ⟨"qb", "pb"⟩]⟩ emptyAcc
    ⟨"qa", "pa"⟩ [⟨"qb", "pb"⟩] ⟨"ra", [], "qa", 1, none⟩
    rfl rfl rfl rfl (List.cons_ne_nil _ _) rfl
  refine ⟨⟨rfl, List.cons_ne_nil _ _, rfl⟩, h.1, ?_⟩
  obtain ⟨acc2, hp, _, hq⟩ := h.2.2
  exact ⟨acc2, hp, hq⟩

/-- C5: for every step in parallel (fan-out) mode, the result list has exactly
one entry per query; entry n is determined by query n and its own resolution
outcome alone, in input order regardless of completion order (the gather
contract); a resolution that raises becomes a score-0 entry at its own index
carrying the failure description; and changing the behaviour of any other
query resolution leaves entry n unchanged (sibling isolation). -/
theorem c5_fanout_order (step : ExecutionStep)
    (resolve : Nat → String → Except String RefinedData) (hmode : step.mode = .parallel) :
    (execute_search_step step resolve).length = step.search_queries.length ∧
    (∀ n, (execute_search_step step resolve).get? n =
      (step.search_queries.get? n).map (fun q => settle q.query (resolve n q.query))) ∧
    (∀ n q e, step.search_queries.get? n = some q → resolve n q.query = .error e →
      (execute_search_step step resolve).get? n =
        some { refined_data := "Search failed due to exception", sources := [],
               query := q.query, score := 0, error := some e }) ∧
    (∀ (resolve2 : Nat → String → Except String RefinedData) n q,
      step.search_queries.get? n = some q → resolve2 n q.query = resolve n q.query →
      (execute_search_step step resolve2).get? n = (execute_search_step step resolve).get? n) := by
  refine ⟨?_, ?_, ?_, ?_⟩
  · rw [execute_search_step_parallel step resolve hmode]
    exact gatherSettle_length resolve _ 0
  · intro n
    rw [execute_search_step_parallel step resolve hmode, gatherSettle_get? resolve _ 0 n]
    simp
  · intro n q e hq he
    rw [execute_search_step_parallel step resolve hmode, gatherSettle_get? resolve _ 0 n, hq]
    simp [settle, he, errorDict]
  · intro resolve2 n q hq hagree
    rw [execute_search_step_parallel step resolve hmode,
      execute_search_step_parallel step resolve2 hmode,
      gatherSettle_get? resolve _ 0 n, gatherSettle_get? resolve2 _ 0 n, hq]
    simp [hagree]

/-- Witness for C5: a two-query fan-out step where query 0 succeeds and the
resolution of query 1 raises; the output has length 2 and the failure sits at
index 1 as a score-0 entry. -/
theorem c5_fanout_order_witness :
    ((⟨3, "par", .search, .parallel, [], [⟨"qa", "pa"⟩, ⟨"qb", "pb"⟩]⟩ : ExecutionStep).mode
        = .parallel) ∧
    (execute_search_step ⟨3, "par", .search, .parallel, [], [⟨"qa", "pa"⟩, ⟨"qb", "pb"⟩]⟩
        (fun i _ => if i = 0 then .ok ⟨"ra", [], "qa", 1, none⟩ else .error "boom")).length
      = 2 ∧
    (execute_search_step ⟨3, "par", .search, .parallel, [], [⟨"qa", "pa"⟩, ⟨"qb", "pb"⟩]⟩
        (fun i _ => if i = 0 then .ok ⟨"ra", [], "qa", 1, none⟩ else .error "boom")).get? 1 =
      some { refined_data := "Search failed due to exception", sources := [],
             query := "qb", score := 0, error := some "boom" } := by
  have h := c5_fanout_order
    ⟨3, "par", .search, .parallel, [], [⟨"qa", "pa"⟩, ⟨"qb", "pb"⟩]⟩
    (fun i _ => if i = 0 then .ok ⟨"ra", [], "qa", 1, none⟩ else .error "boom") rfl
  refine ⟨rfl, ?_, ?_⟩
  · rw [h.1]
    rfl
  · exact h.2.2.1 1 ⟨"qb", "pb"⟩ "boom" rfl rfl

/-- C6: for every query and every returning search/refiner behaviour whose
source indices never fail, the resolver (a) returns the current attempt's dict
immediately when that attempt passes validation and the refiner signals
should_retry = false — whatever best result the earlier attempts accumulated,
even a higher-scoring one — and (b) when all 4 attempts say retry (or fail
validation), returns the fold of the produced attempt dicts under the
best-tracking update, which is a maximum-quality produced dict, or the score-0
sentinel with its failure description when no attempt produced a dict. -/
theorem c6_resolver_retry_policy (query : String) (sB : Nat → List SearchResult)
    (rB : Nat → List SearchResult → RefineResult) (hOk : sourcesOk rB) :
    (∀ k c, k < orchestratorMaxRetries + 1 →
      (∀ j, j < k → attemptCurrent query sB rB j = none ∨ attemptRetries sB rB j = true) →
      attemptCurrent query sB rB k = some c →
      attemptRetries sB rB k = false →
      search_with_refine query (liftSearch sB) (liftRefine rB) = .ok c) ∧
    ((∀ j, j < orchestratorMaxRetries + 1 →
        attemptCurrent query sB rB j = none ∨ attemptRetries sB rB j = true) →
      (producedBetween query sB rB 0 (orchestratorMaxRetries + 1) = [] →
        search_with_refine query (liftSearch sB) (liftRefine rB) =
          .ok (failureSentinel query)) ∧
      (∀ b,
        (producedBetween query sB rB 0 (orchestratorMaxRetries + 1)).foldl updateBest none =
          some b →
        search_with_refine query (liftSearch sB) (liftRefine rB) = .ok b ∧
        b ∈ producedBetween query sB rB 0 (orchestratorMaxRetries + 1) ∧
        ∀ x ∈ producedBetween query sB rB 0 (orchestratorMaxRetries + 1),
          x.score ≤ b.score)) := by
  constructor
  · intro k c hk hcont hcur hret
    unfold search_with_refine
    exact swrLoop_early query sB rB hOk k (orchestratorMaxRetries + 1) 0 none c hk
      (fun j hj => by simpa using hcont j hj) (by simpa using hcur) (by simpa using hret)
  · intro hcont
    have hex := swrLoop_exhaust query sB rB hOk (orchestratorMaxRetries + 1) 0 none
      (fun j hj => by simpa using hcont j hj)
    constructor
    · intro hemp
      unfold search_with_refine
      rw [hex, hemp]
      rfl
    · intro b hb
      obtain ⟨hmem, hsc, _⟩ := foldl_updateBest_spec _ none b hb
      refine ⟨?_, ?_, hsc⟩
      · unfold search_with_refine
        rw [hex, hb]
      · rcases hmem with h | h
        · exact h
        · cases h

/-- Witness for C6 at a behaviour whose search always returns an empty list:
every attempt fails validation, nothing is produced, and the resolver returns
the sentinel failure dict. -/
theorem c6_resolver_retry_policy_witness :
    sourcesOk (fun _ _ => (⟨0, true, "", "", []⟩ : RefineResult)) ∧
    (∀ j, j < orchestratorMaxRetries + 1 →
      attemptCurrent "q" (fun _ => []) (fun _ _ => (⟨0, true, "", "", []⟩ : RefineResult)) j =
          none ∨
        attemptRetries (fun _ => []) (fun _ _ => (⟨0, true, "", "", []⟩ : RefineResult)) j =
          true) ∧
    producedBetween "q" (fun _ => []) (fun _ _ => (⟨0, true, "", "", []⟩ : RefineResult)) 0
        (orchestratorMaxRetries + 1) = [] ∧
    search_with_refine "q" (liftSearch (fun _ => []))
        (liftRefine (fun _ _ => (⟨0, true, "", "", []⟩ : RefineResult))) =
      .ok (failureSentinel "q") := by
  have hOk : sourcesOk (fun _ _ => (⟨0, true, "", "", []⟩ : RefineResult)) :=
    fun rc docs => ⟨[], rfl⟩
  have hcont : ∀ j, j < orchestratorMaxRetries + 1 →
      attemptCurrent "q" (fun _ => []) (fun _ _ => (⟨0, true, "", "", []⟩ : RefineResult)) j =
          none ∨
        attemptRetries (fun _ => []) (fun _ _ => (⟨0, true, "", "", []⟩ : RefineResult)) j =
          true :=
    fun j _ => Or.inl rfl
  refine ⟨hOk, hcont, rfl, ?_⟩
  exact ((c6_resolver_retry_policy "q" (fun _ => [])
    (fun _ _ => ⟨0, true, "", "", []⟩) hOk).2 hcont).1 rfl
